import Mathlib

/-
Verification of the github-backup script (src/github-backup.py) against its
natural-language specification.  The Python source is shallowly embedded:
pure computations become Lean functions, the network is a function from URL
to response, external tools (git, tar) become boolean outcome parameters,
and the filesystem is an explicit list of entries.  Machine behaviour that
matters (Python timedelta normalisation, dictionary KeyError, the
requests raise_for_status rule) is modelled explicitly.
-/

namespace GithubBackup

/-- Exceptions the Python program can raise, as an error type.
httpError models requests.exceptions.HTTPError from raise_for_status,
keyError models a missing dictionary key in r.headers, valueError models a
failed tuple unpacking of str.split, fileExistsError models os.makedirs on
an existing path, calledProcessError models subprocess.check_call with a
non-zero exit, tarError models a failure inside tarfile add.
fuelOut is an artefact of the embedding: the Python while loops have no
bound, so the Lean loops take a fuel argument and report fuelOut when it
runs out; theorems always supply enough fuel. -/
inductive PyErr where
  | httpError (status : Nat)
  | keyError
  | valueError
  | fileExistsError
  | calledProcessError
  | tarError
  | fuelOut
deriving Repr, DecidableEq

/-- An HTTP response as the script consumes it: the status code, the parsed
JSON array body (a list of records of type gamma), the optional
rel-next link from r.links, and the two rate-limit headers.  The headers
are Option because a header can be absent from the dictionary; an absent
header read with r.headers[...] raises KeyError. -/
structure Response (γ : Type) where
  status : Nat
  body : List γ
  next : Option String
  remaining : Option Int
  reset : Option Int
deriving Repr, DecidableEq

/-- Embeds next_page_url (line 16): r.links with key next if present,
else None. -/
def next_page_url {γ : Type} (r : Response γ) : Option String :=
  r.next

/-- Python timedelta normalisation: a timedelta of t total seconds is
stored as (days, seconds) with seconds = t mod 86400 in the range
0..86399, so the seconds attribute of a negative timedelta is large and
non-negative.  Int emod matches the Python sign convention. -/
def timedelta_seconds (t : Int) : Int :=
  t % 86400

/-- Embeds wait_for_rate_limit (lines 19 to 26), at one-second
granularity for the clock.  The function reads the x-ratelimit-remaining
header (KeyError if absent); when remaining is at most 1 it reads the
x-ratelimit-reset header (KeyError if absent) and computes
delay = (reset_at - now).seconds + 1.  The returned some delay records the
computed delay; the Python function only logs it and never sleeps, and
returns None.  A result of ok none means remaining was above 1 and no
delay was computed. -/
def wait_for_rate_limit {γ : Type} (r : Response γ) (now : Int) :
    Except PyErr (Option Int) :=
  match r.remaining with
  | none => Except.error PyErr.keyError
  | some remaining =>
    if remaining ≤ 1 then
      match r.reset with
      | none => Except.error PyErr.keyError
      | some reset =>
          Except.ok (some (timedelta_seconds (reset - now) + 1))
    else Except.ok none

/-- Embeds requests Response raise_for_status: it raises HTTPError exactly
when the status code is 4xx or 5xx, and is a no-op for every other
status. -/
def raise_for_status {γ : Type} (r : Response γ) : Except PyErr Unit :=
  if 400 ≤ r.status ∧ r.status < 600 then
    Except.error (PyErr.httpError r.status)
  else Except.ok ()

/-- Embeds the status check pattern used at lines 35 to 36, 95 to 96 and
108 to 109: if r.status_code != 200 then r.raise_for_status(). -/
def check_status {γ : Type} (r : Response γ) : Except PyErr Unit :=
  if r.status ≠ 200 then raise_for_status r else Except.ok ()

/-- Observable events of a pager run: an HTTP GET of a URL, or a sleep.
The embedding emits a sleep event wherever the source sleeps; the source
as written contains no sleep call, so no sleep event is ever emitted. -/
inductive Event where
  | fetch (url : String)
  | sleep (seconds : Int)
deriving Repr, DecidableEq

/-- Result of driving a generator to the end: the records it yielded in
order, the events it performed in order, and the terminal error if it
raised one. -/
structure PagerResult (γ : Type) where
  yielded : List γ
  events : List Event
  error : Option PyErr
deriving Repr, DecidableEq

/-- Embeds the while loop of list_user_repositories (lines 31 to 43),
driven to completion.  Each iteration performs the GET, checks the status
(raise_for_status on non-200), computes the next page pointer, calls
wait_for_rate_limit, and then yields every record of the page body in
order.  On an exception the records of the current page are not yielded
and the loop stops with that error. -/
def pagerLoop {γ : Type} (net : String → Response γ) (now : Int) :
    Nat → Option String → PagerResult γ
  | _, none => ⟨[], [], none⟩
  | 0, some _ => ⟨[], [], some PyErr.fuelOut⟩
  | fuel+1, some url =>
    let r := net url
    match check_status r with
    | Except.error e => ⟨[], [Event.fetch url], some e⟩
    | Except.ok _ =>
      match wait_for_rate_limit r now with
      | Except.error e => ⟨[], [Event.fetch url], some e⟩
      | Except.ok _ =>
        let rest := pagerLoop net now fuel (next_page_url r)
        ⟨r.body ++ rest.yielded, Event.fetch url :: rest.events, rest.error⟩

/-- The fixed first page URL of list_user_repositories (line 29). -/
def repos_first_page_url : String :=
  "https://api.github.com/user/repos?page=1"

/-- Embeds list_user_repositories (lines 28 to 43): the pager loop seeded
at the fixed repository listing URL. -/
def list_user_repositories {γ : Type} (net : String → Response γ)
    (now : Int) (fuel : Nat) : PagerResult γ :=
  pagerLoop net now fuel (some repos_first_page_url)

/-- A page is well formed for the purposes of the pager: HTTP 200 and both
rate-limit headers present (the live API always sends them, and the spec
data model reads the rate-limit pair fresh from every response). -/
def pageOk {γ : Type} (r : Response γ) : Bool :=
  r.status == 200 && r.remaining.isSome && r.reset.isSome

/-- IsChain net us ps states that ps is the paginated collection reached
by fetching the URLs us in order: fetching an element of us yields the
corresponding element of ps, every page except the last carries a next
link to the following URL, and the last page carries no next link. -/
def IsChain {γ : Type} (net : String → Response γ) :
    List String → List (Response γ) → Prop
  | [], [] => True
  | u :: us, p :: ps =>
      net u = p
      ∧ (match us with
         | [] => p.next = none
         | u2 :: _ => p.next = some u2)
      ∧ IsChain net us ps
  | _, _ => False

/-- ChainTo net us ps v states that fetching the URLs us in order yields
the pages ps, each page linking onward, with the last page of the prefix
linking to the URL v; an empty prefix means v is the first URL fetched. -/
def ChainTo {γ : Type} (net : String → Response γ) :
    List String → List (Response γ) → String → Prop
  | [], [], _ => True
  | u :: us, p :: ps, v =>
      net u = p
      ∧ (match us with
         | [] => p.next = some v
         | u2 :: _ => p.next = some u2)
      ∧ ChainTo net us ps v
  | _, _, _ => False

theorem pageOk_fields {γ : Type} {r : Response γ} (h : pageOk r = true) :
    r.status = 200 ∧ r.remaining.isSome ∧ r.reset.isSome := by
  simp only [pageOk, Bool.and_eq_true, beq_iff_eq] at h
  exact ⟨h.1.1, h.1.2, h.2⟩

theorem wait_for_rate_limit_ok {γ : Type} {r : Response γ} (now : Int)
    (h1 : r.remaining.isSome) (h2 : r.reset.isSome) :
    ∃ o, wait_for_rate_limit r now = Except.ok o := by
  obtain ⟨v, hv⟩ := Option.isSome_iff_exists.mp h1
  obtain ⟨w, hw⟩ := Option.isSome_iff_exists.mp h2
  by_cases hle : v ≤ 1
  · exact ⟨some (timedelta_seconds (w - now) + 1),
      by simp [wait_for_rate_limit, hv, hw, hle]⟩
  · exact ⟨none, by simp [wait_for_rate_limit, hv, hw, hle]⟩

theorem check_status_200 {γ : Type} {r : Response γ} (h : r.status = 200) :
    check_status r = Except.ok () := by
  simp [check_status, h]

theorem check_status_error {γ : Type} {r : Response γ}
    (h1 : 400 ≤ r.status) (h2 : r.status < 600) :
    check_status r = Except.error (PyErr.httpError r.status) := by
  have hne : r.status ≠ 200 := by omega
  simp [check_status, raise_for_status, hne, h1, h2]

theorem IsChain_length {γ : Type} (net : String → Response γ) :
    ∀ (us : List String) (ps : List (Response γ)),
      IsChain net us ps → us.length = ps.length
  | [], [], _ => rfl
  | [], _ :: _, h => h.elim
  | _ :: _, [], h => h.elim
  | _ :: us, _ :: ps, h => by
      simpa using IsChain_length net us ps h.2.2

/-- The pager, run on a well formed chain of pages with fuel at least the
number of pages, yields exactly the concatenation of the page bodies in
order, performs exactly one fetch per page, and raises no error. -/
theorem pagerLoop_chain {γ : Type} (net : String → Response γ) (now : Int)
    (us : List String) :
    ∀ (ps : List (Response γ)) (k : Nat),
      IsChain net us ps → ps.all pageOk = true →
      pagerLoop net now (ps.length + k) us.head?
        = ⟨(ps.map Response.body).flatten, us.map Event.fetch, none⟩ := by
  induction us with
  | nil =>
    intro ps k hchain _
    cases ps with
    | nil => cases k <;> rfl
    | cons p ps => exact hchain.elim
  | cons u us ih =>
    intro ps k hchain hok
    cases ps with
    | nil => exact hchain.elim
    | cons p ps =>
      obtain ⟨hnet, hnext, hrest⟩ := hchain
      rw [List.all_cons, Bool.and_eq_true] at hok
      obtain ⟨hokp, hokps⟩ := hok
      have hf := pageOk_fields hokp
      obtain ⟨o, ho⟩ := wait_for_rate_limit_ok now hf.2.1 hf.2.2
      have hnext2 : next_page_url p = us.head? := by
        cases us with
        | nil => simpa [next_page_url] using hnext
        | cons u2 us2 => simpa [next_page_url] using hnext
      have hlen : (p :: ps).length + k = (ps.length + k) + 1 := by
        simp [List.length_cons]; omega
      rw [hlen]
      show pagerLoop net now ((ps.length + k) + 1) (some u) = _
      simp only [pagerLoop, hnet, check_status_200 hf.1, ho, hnext2,
        ih ps k hrest hokps]
      simp

/-- The pager, run on a well formed prefix chain whose last link points at
a URL answered with a 4xx or 5xx status, yields exactly the records of the
prefix pages, fetches each page once and the failing URL once with nothing
after it, and stops with an HTTPError carrying the status code. -/
theorem pagerLoop_chainTo_error {γ : Type} (net : String → Response γ)
    (now : Int) (us : List String) :
    ∀ (ps : List (Response γ)) (k : Nat) (v : String),
      ChainTo net us ps v → ps.all pageOk = true →
      400 ≤ (net v).status → (net v).status < 600 →
      pagerLoop net now (ps.length + 1 + k) (some (us.headD v))
        = ⟨(ps.map Response.body).flatten, (us ++ [v]).map Event.fetch,
           some (PyErr.httpError (net v).status)⟩ := by
  induction us with
  | nil =>
    intro ps k v hchain _ h1 h2
    cases ps with
    | nil =>
      show pagerLoop net now (0 + 1 + k) (some v) = _
      have : (0 : Nat) + 1 + k = k + 1 := by omega
      rw [this]
      simp only [pagerLoop, check_status_error h1 h2]
      simp
    | cons p ps => exact hchain.elim
  | cons u us ih =>
    intro ps k v hchain hok h1 h2
    cases ps with
    | nil => exact hchain.elim
    | cons p ps =>
      obtain ⟨hnet, hnext, hrest⟩ := hchain
      rw [List.all_cons, Bool.and_eq_true] at hok
      obtain ⟨hokp, hokps⟩ := hok
      have hf := pageOk_fields hokp
      obtain ⟨o, ho⟩ := wait_for_rate_limit_ok now hf.2.1 hf.2.2
      have hnext2 : next_page_url p = some (us.headD v) := by
        cases us with
        | nil => simpa [next_page_url] using hnext
        | cons u2 us2 => simpa [next_page_url] using hnext
      have hlen : (p :: ps).length + 1 + k = (ps.length + 1 + k) + 1 := by
        simp [List.length_cons]; omega
      rw [hlen]
      show pagerLoop net now ((ps.length + 1 + k) + 1) (some u) = _
      simp only [pagerLoop, hnet, check_status_200 hf.1, ho, hnext2,
        ih ps k v hrest hokps h1 h2]
      simp

/-- C1: on a collection of N pages where every response except the last
carries a next pointer, list_user_repositories yields exactly the
concatenation of the page bodies in server order, with no deduplication or
reordering, terminates with fuel N, performs exactly one fetch per page
(so N page fetches in total), and raises no error. -/
theorem list_user_repositories_concatenates_pages {γ : Type}
    (net : String → Response γ) (now : Int) (us : List String)
    (ps : List (Response γ))
    (hchain : IsChain net (repos_first_page_url :: us) ps)
    (hok : ps.all pageOk = true) :
    list_user_repositories net now ps.length
        = ⟨(ps.map Response.body).flatten,
           (repos_first_page_url :: us).map Event.fetch, none⟩
    ∧ (repos_first_page_url :: us).length = ps.length := by
  refine ⟨?_, IsChain_length net _ _ hchain⟩
  have h := pagerLoop_chain net now (repos_first_page_url :: us) ps 0
    hchain hok
  simpa [list_user_repositories] using h

/-- C1 witness: a concrete three page collection, with an empty middle
page, yields the flattened records in order with exactly three fetches. -/
theorem list_user_repositories_concatenates_pages_check :
    list_user_repositories
      (fun u => if u = "u2"
        then (⟨200, [], some "u3", some 10, some 0⟩ : Response Nat)
        else if u = "u3" then ⟨200, [3], none, some 0, some 99⟩
        else ⟨200, [1, 2], some "u2", some 10, some 0⟩)
      0 3
      = ⟨[1, 2, 3],
         [Event.fetch repos_first_page_url, Event.fetch "u2",
          Event.fetch "u3"], none⟩ :=
  (list_user_repositories_concatenates_pages _ 0 ["u2", "u3"]
    [⟨200, [1, 2], some "u2", some 10, some 0⟩,
     ⟨200, [], some "u3", some 10, some 0⟩,
     ⟨200, [3], none, some 0, some 99⟩]
    ⟨by decide, rfl, by decide, rfl, by decide, rfl, trivial⟩
    (by decide)).1

/-- C5 counterexample: the claim says every non-success status fails the
sequence with an ApiError carrying the status.  A 301 response, which is
not a success status, takes the non-200 branch, but raise_for_status only
raises for 4xx and 5xx, so the page is processed normally: its records are
yielded and no error is raised. -/
theorem pager_tolerates_301 :
    pagerLoop (fun _ => (⟨301, [7], none, some 10, some 0⟩ : Response Nat))
      0 1 (some "u")
      = ⟨[7], [Event.fetch "u"], none⟩ := by
  decide

/-- C5 amended: for every page fetch returning a 4xx or 5xx status the
pager fails the whole sequence with an HTTPError carrying the status code,
yields no records from the failing page or any later page, and fetches the
failing URL exactly once with no retry; non-200 statuses outside 400 to
599 are not treated as errors. -/
theorem pager_fails_on_error_status {γ : Type} (net : String → Response γ)
    (now : Int) (us : List String) (ps : List (Response γ)) (k : Nat)
    (v : String) (hchain : ChainTo net us ps v)
    (hok : ps.all pageOk = true)
    (h1 : 400 ≤ (net v).status) (h2 : (net v).status < 600) :
    pagerLoop net now (ps.length + 1 + k) (some (us.headD v))
      = ⟨(ps.map Response.body).flatten, (us ++ [v]).map Event.fetch,
         some (PyErr.httpError (net v).status)⟩ :=
  pagerLoop_chainTo_error net now us ps k v hchain hok h1 h2

/-- C5 amended witness: two good pages followed by a 503 yield exactly the
two first pages of records, three fetches with no retry, and an HTTPError
carrying 503. -/
theorem pager_fails_on_error_status_check :
    pagerLoop
      (fun u => if u = "a"
        then (⟨200, [1], some "b", some 10, some 0⟩ : Response Nat)
        else if u = "b" then ⟨200, [2], some "c", some 10, some 0⟩
        else ⟨503, [9], none, some 10, some 0⟩)
      0 3 (some "a")
      = ⟨[1, 2], [Event.fetch "a", Event.fetch "b", Event.fetch "c"],
         some (PyErr.httpError 503)⟩ :=
  pager_fails_on_error_status _ 0 ["a", "b"]
    [⟨200, [1], some "b", some 10, some 0⟩,
     ⟨200, [2], some "c", some 10, some 0⟩]
    0 "c"
    ⟨by decide, rfl, by decide, rfl, trivial⟩
    (by decide) (by decide) (by decide)

/-- Filesystem paths and path fragments, as lists of characters so that
splitting and joining can be reasoned about character by character. -/
abbrev Path := List Char

/-- Embeds the str split method with a one character separator: splitting
on sep produces the possibly empty runs between occurrences of sep, one
piece more than there are separators. -/
def pySplitAux (sep : Char) : List Char → List Char → List Path
  | [], acc => [acc.reverse]
  | c :: cs, acc =>
      if c = sep then acc.reverse :: pySplitAux sep cs []
      else pySplitAux sep cs (c :: acc)

def pySplit (s : Path) (sep : Char) : List Path :=
  pySplitAux sep s []

/-- Embeds os.path.join on two components: an absolute second component
replaces the first, an empty first component is dropped, and otherwise the
components are joined with exactly one slash. -/
def os_path_join (a b : Path) : Path :=
  if b.head? = some '/' then b
  else if a = [] then b
  else if a.getLast? = some '/' then a ++ b
  else a ++ '/' :: b

/-- Embeds repo_path (lines 45 to 47): split full_name on the slash,
unpack exactly an owner and a repository name (the Python tuple unpacking
raises ValueError for any other number of pieces), and join the base with
owner and name. -/
def repo_path (base : Path) (full_name : Path) : Except PyErr Path :=
  match pySplit full_name '/' with
  | [owner, repo_name] =>
      Except.ok (os_path_join (os_path_join base owner) repo_name)
  | _ => Except.error PyErr.valueError

/-- The fields of a repository record the script consumes: full_name in
owner slash name form, clone_url, and the visibility flag (called
is_private here because the Python field name is a reserved word in Lean).
All other fields of the record are opaque pass-through data. -/
structure Repo where
  full_name : Path
  clone_url : String
  is_private : Bool
deriving Repr, DecidableEq

/-- The fields of an issue record the script consumes: number, url, and
comments_url, the seed of the comment pagination walk. -/
structure Issue where
  number : Nat
  url : String
  comments_url : String
deriving Repr, DecidableEq

/-- Contents of the JSON files the script writes. -/
inductive FileContent (κ : Type) where
  | repoInfo (repo : Repo)
  | issueJson (issue : Issue)
  | commentsJson (comments : List κ)
deriving Repr, DecidableEq

/-- A filesystem entry: a directory, a written file, a git mirror clone
directory, or the tar.xz archive file; the archive entry records whether
the archive was fully written or left behind by a failing archiver run. -/
inductive FsEntry (κ : Type) where
  | dir (p : Path)
  | file (p : Path) (content : FileContent κ)
  | mirror (p : Path) (clone_url : String)
  | archiveFile (p : Path) (complete : Bool)
deriving Repr, DecidableEq

/-- The filesystem as the list of its entries, most recent first. -/
abbrev FS (κ : Type) := List (FsEntry κ)

def FsEntry.path {κ : Type} : FsEntry κ → Path
  | .dir p => p
  | .file p _ => p
  | .mirror p _ => p
  | .archiveFile p _ => p

def fsExists {κ : Type} (fs : FS κ) (p : Path) : Bool :=
  fs.any fun e => e.path == p

/-- Embeds os.makedirs: fails with FileExistsError when the target path
already exists, otherwise records the new directory.  Creation of missing
intermediate directories is not modelled. -/
def makedirs {κ : Type} (fs : FS κ) (p : Path) : Except PyErr (FS κ) :=
  if fsExists fs p then Except.error PyErr.fileExistsError
  else Except.ok (FsEntry.dir p :: fs)

/-- Embeds shutil.rmtree on a directory: removes every entry at that
path. -/
def fsRemove {κ : Type} (fs : FS κ) (p : Path) : FS κ :=
  fs.filter fun e => !(e.path == p)

/-- Embeds write_repository_info (lines 49 to 53): writes the record
verbatim to repository-info.json under the repository path. -/
def write_repository_info {κ : Type} (fs : FS κ) (path : Path)
    (repo : Repo) : FS κ :=
  FsEntry.file (os_path_join path ("repository-info.json").toList)
    (FileContent.repoInfo repo) :: fs

/-- Embeds clone_repository (lines 55 to 79).  The git clone and the
archiver are external effects, so their outcomes enter as booleans.  A
failed clone raises CalledProcessError from subprocess.check_call and
changes nothing.  A successful clone creates the mirror directory.  When
compress is set, tarfile.open with mode w colon xz creates the archive
file first; if adding the tree fails the exception propagates with the
partly written archive file still on disk, and only after a fully written
archive is the mirror directory removed with shutil.rmtree. -/
def clone_repository {κ : Type} (fs : FS κ) (path : Path) (repo : Repo)
    (compress cloneOk archiveOk : Bool) : FS κ × Option PyErr :=
  let repo_dir := os_path_join path ("repository").toList
  if cloneOk = false then (fs, some PyErr.calledProcessError)
  else
    let fs1 : FS κ := FsEntry.mirror repo_dir repo.clone_url :: fs
    if compress then
      let archive_path := os_path_join path ("repository.tar.xz").toList
      if archiveOk then
        (fsRemove (FsEntry.archiveFile archive_path true :: fs1) repo_dir,
         none)
      else
        (FsEntry.archiveFile archive_path false :: fs1, some PyErr.tarError)
    else (fs1, none)

theorem head?_ne_of_not_mem {l : List Char} {a : Char} (h : a ∉ l) :
    l.head? ≠ some a := by
  cases l with
  | nil => simp
  | cons c cs =>
    intro hc
    rw [List.head?_cons, Option.some.injEq] at hc
    exact h (by rw [← hc]; exact List.mem_cons_self c cs)

theorem getLast?_ne_of_not_mem {l : List Char} {a : Char} (h : a ∉ l) :
    l.getLast? ≠ some a := by
  induction l with
  | nil => simp
  | cons c cs ih =>
    cases cs with
    | nil =>
      intro hc
      rw [List.getLast?_singleton, Option.some.injEq] at hc
      exact h (by rw [← hc]; exact List.mem_cons_self c [])
    | cons d ds =>
      rw [List.getLast?_cons_cons]
      exact ih (fun hm => h (List.mem_cons_of_mem c hm))

theorem pySplitAux_not_mem (sep : Char) (s : List Char) :
    ∀ acc : List Char, sep ∉ s → pySplitAux sep s acc = [acc.reverse ++ s] := by
  induction s with
  | nil => intro acc _; simp [pySplitAux]
  | cons c cs ih =>
    intro acc h
    have hc : ¬ c = sep := by
      intro hcs; exact h (by rw [← hcs]; exact List.mem_cons_self c cs)
    have h2 : sep ∉ cs := fun hm => h (List.mem_cons_of_mem c hm)
    simp only [pySplitAux, if_neg hc, ih (c :: acc) h2]
    simp

theorem pySplitAux_sep (sep : Char) (owner : List Char) :
    ∀ acc rest : List Char, sep ∉ owner →
      pySplitAux sep (owner ++ sep :: rest) acc
        = (acc.reverse ++ owner) :: pySplitAux sep rest [] := by
  induction owner with
  | nil => intro acc rest _; simp [pySplitAux]
  | cons c cs ih =>
    intro acc rest h
    have hc : ¬ c = sep := by
      intro hcs; exact h (by rw [← hcs]; exact List.mem_cons_self c cs)
    have h2 : sep ∉ cs := fun hm => h (List.mem_cons_of_mem c hm)
    simp only [List.cons_append, pySplitAux, if_neg hc, List.append_eq]
    rw [ih (c :: acc) rest h2]
    simp

/-- Splitting an owner slash name string with no other slashes gives
exactly the owner and the name. -/
theorem pySplit_owner_name {owner name : List Char}
    (ho : '/' ∉ owner) (hn : '/' ∉ name) :
    pySplit (owner ++ '/' :: name) '/' = [owner, name] := by
  rw [pySplit, pySplitAux_sep '/' owner [] name ho,
    pySplitAux_not_mem '/' name [] hn]
  simp

/-- Joining the same base with different relative components gives
different paths. -/
theorem os_path_join_ne {a b c : Path} (hb : b.head? ≠ some '/')
    (hc : c.head? ≠ some '/') (hbc : b ≠ c) :
    os_path_join a b ≠ os_path_join a c := by
  unfold os_path_join
  rw [if_neg hb, if_neg hc]
  by_cases ha : a = []
  · rw [if_pos ha, if_pos ha]; exact hbc
  · rw [if_neg ha, if_neg ha]
    by_cases ha2 : a.getLast? = some '/'
    · rw [if_pos ha2, if_pos ha2]
      intro he; exact hbc (List.append_cancel_left he)
    · rw [if_neg ha2, if_neg ha2]
      intro he
      have h2 := List.append_cancel_left he
      injection h2 with _ h3
      exact hbc h3

theorem os_path_join_slash {a b : Path} (ha : a ≠ [])
    (ha2 : a.getLast? ≠ some '/') (hb : b.head? ≠ some '/') :
    os_path_join a b = a ++ '/' :: b := by
  simp [os_path_join, ha, ha2, hb]

/-- C6: for a record whose full_name is owner slash name with non-empty
slash-free halves, repo_path derives destination_root slash owner slash
name (for a destination root that is non-empty and has no trailing slash,
as in the spec example), and os.makedirs on that path fails with
FileExistsError when the path already exists and creates the directory
otherwise. -/
theorem repo_path_derivation {κ : Type} (dest owner name full_name : Path)
    (howner : owner ≠ []) (hname : name ≠ [])
    (howner2 : '/' ∉ owner) (hname2 : '/' ∉ name)
    (hfull : full_name = owner ++ '/' :: name)
    (hdest1 : dest ≠ []) (hdest2 : dest.getLast? ≠ some '/') :
    repo_path dest full_name
        = Except.ok (dest ++ '/' :: owner ++ '/' :: name)
    ∧ (∀ fs : FS κ,
        fsExists fs (dest ++ '/' :: owner ++ '/' :: name) = true →
        makedirs fs (dest ++ '/' :: owner ++ '/' :: name)
          = Except.error PyErr.fileExistsError)
    ∧ (∀ fs : FS κ,
        fsExists fs (dest ++ '/' :: owner ++ '/' :: name) = false →
        makedirs fs (dest ++ '/' :: owner ++ '/' :: name)
          = Except.ok
              (FsEntry.dir (dest ++ '/' :: owner ++ '/' :: name) :: fs)) := by
  refine ⟨?_, ?_, ?_⟩
  · subst hfull
    have hne : dest ++ '/' :: owner ≠ [] := by simp
    have hlast : (dest ++ '/' :: owner).getLast? ≠ some '/' := by
      rw [List.getLast?_append_cons]
      cases owner with
      | nil => exact absurd rfl howner
      | cons d ds =>
        rw [List.getLast?_cons_cons]
        exact getLast?_ne_of_not_mem howner2
    simp only [repo_path, pySplit_owner_name howner2 hname2,
      os_path_join_slash hdest1 hdest2 (head?_ne_of_not_mem howner2),
      os_path_join_slash hne hlast (head?_ne_of_not_mem hname2)]
  · intro fs h
    unfold makedirs
    rw [h]
    simp
  · intro fs h
    unfold makedirs
    rw [h]
    simp

/-- C6 witness: the spec example, full_name alice slash project-x with
destination root backups, gives the expected nested path, and makedirs on
an empty filesystem creates it. -/
theorem repo_path_derivation_check :
    repo_path ("/backups").toList ("alice/project-x").toList
      = Except.ok (("/backups/alice/project-x").toList)
    ∧ makedirs ([] : FS Nat) (("/backups/alice/project-x").toList)
      = Except.ok [FsEntry.dir (("/backups/alice/project-x").toList)] := by
  have h := repo_path_derivation (κ := Nat) ("/backups").toList
    ("alice").toList ("project-x").toList ("alice/project-x").toList
    (by decide) (by decide) (by decide) (by decide) (by decide)
    (by decide) (by decide)
  exact ⟨h.1, h.2.2 [] (by decide)⟩

/-- C4 counterexample: the claim says a failing archiver leaves no partial
or corrupt archive file in place.  With a successful clone and a failing
archiver, the error propagates and the mirror directory is intact, but the
file created by tarfile.open remains on disk as a partial archive. -/
theorem clone_repository_partial_archive_remains :
    clone_repository ([] : FS Nat) ("/b/o/r").toList
      ⟨("o/r").toList, "git://x", false⟩ true true false
      = ([FsEntry.archiveFile (("/b/o/r/repository.tar.xz").toList) false,
          FsEntry.mirror (("/b/o/r/repository").toList) "git://x"],
         some PyErr.tarError) := by
  decide

/-- C4 amended: the mirror directory is deleted only after the archive is
fully written; if archiving fails the mirror directory is left intact and
the error propagates, but the partly written archive file created by
tarfile.open remains on disk.  On archiver success the fully written
archive is present and the mirror directory is removed. -/
theorem clone_repository_archive_ordering {κ : Type} (fs : FS κ)
    (path : Path) (repo : Repo) :
    ((clone_repository fs path repo true true false).2 = some PyErr.tarError
    ∧ FsEntry.mirror (os_path_join path ("repository").toList) repo.clone_url
        ∈ (clone_repository fs path repo true true false).1
    ∧ FsEntry.archiveFile (os_path_join path ("repository.tar.xz").toList)
          false
        ∈ (clone_repository fs path repo true true false).1)
    ∧ ((clone_repository fs path repo true true true).2 = none
    ∧ FsEntry.archiveFile (os_path_join path ("repository.tar.xz").toList)
          true
        ∈ (clone_repository fs path repo true true true).1
    ∧ ∀ u : String,
        FsEntry.mirror (os_path_join path ("repository").toList) u
          ∉ (clone_repository fs path repo true true true).1) := by
  have hne : os_path_join path ("repository.tar.xz").toList
      ≠ os_path_join path ("repository").toList :=
    os_path_join_ne (by decide) (by decide) (by decide)
  refine ⟨⟨rfl, ?_, ?_⟩, rfl, ?_, ?_⟩
  · simp [clone_repository]
  · simp [clone_repository]
  · simp [clone_repository, fsRemove, List.mem_filter, FsEntry.path]
    exact hne
  · intro u
    simp [clone_repository, fsRemove, List.mem_filter, FsEntry.path]

/-- C4 amended witness: the two archiver outcomes at a concrete
filesystem. -/
theorem clone_repository_archive_ordering_check :
    ((clone_repository ([] : FS Nat) ("/d").toList
        ⟨("o/r").toList, "git://y", false⟩ true true false).2
      = some PyErr.tarError)
    ∧ ((clone_repository ([] : FS Nat) ("/d").toList
        ⟨("o/r").toList, "git://y", false⟩ true true true).2 = none)
    ∧ (FsEntry.mirror (("/d/repository").toList) "git://y"
        ∉ (clone_repository ([] : FS Nat) ("/d").toList
            ⟨("o/r").toList, "git://y", false⟩ true true true).1) := by
  have h := clone_repository_archive_ordering ([] : FS Nat) ("/d").toList
    ⟨("o/r").toList, "git://y", false⟩
  exact ⟨h.1.1, h.2.1, h.2.2.2 "git://y"⟩

/-- Embeds the comment collection loop of save_issue (lines 102 to 115):
starting from the comments_url of the issue, repeatedly GET the page,
check the status, extend the accumulated comment list with the page body,
follow the next pointer and consult the rate limiter.  Returns the
comments accumulated so far, the fetch events performed, and the terminal
error if any. -/
def commentsLoop {κ : Type} (cnet : String → Response κ) (now : Int) :
    Nat → Option String → List κ → List Event →
      List κ × List Event × Option PyErr
  | _, none, acc, evs => (acc, evs, none)
  | 0, some _, acc, evs => (acc, evs, some PyErr.fuelOut)
  | fuel+1, some url, acc, evs =>
    let r := cnet url
    match check_status r with
    | Except.error e => (acc, evs ++ [Event.fetch url], some e)
    | Except.ok _ =>
      let acc2 := acc ++ r.body
      match wait_for_rate_limit r now with
      | Except.error e => (acc2, evs ++ [Event.fetch url], some e)
      | Except.ok _ =>
          commentsLoop cnet now fuel (next_page_url r) acc2
            (evs ++ [Event.fetch url])

/-- Embeds save_issue (lines 102 to 124): collect the entire comment
thread first; only when the whole walk has succeeded, write number.json
with the issue record and then number.comments.json with the collected
comments.  On any error during the walk nothing is written. -/
def save_issue {κ : Type} (cnet : String → Response κ) (now : Int)
    (cfuel : Nat) (fs : FS κ) (issues_dir : Path) (issue : Issue) :
    FS κ × List Event × Option PyErr :=
  match commentsLoop cnet now cfuel (some issue.comments_url) [] [] with
  | (_, evs, some e) => (fs, evs, some e)
  | (comments, evs, none) =>
      let issue_file := os_path_join issues_dir
        ((Nat.repr issue.number).toList ++ (".json").toList)
      let comments_file := os_path_join issues_dir
        ((Nat.repr issue.number).toList ++ (".comments.json").toList)
      (FsEntry.file comments_file (FileContent.commentsJson comments)
         :: FsEntry.file issue_file (FileContent.issueJson issue) :: fs,
       evs, none)

/-- The comment walk on a well formed chain of pages accumulates exactly
the concatenation of the page bodies in order, one fetch per page, with no
error. -/
theorem commentsLoop_chain {κ : Type} (cnet : String → Response κ)
    (now : Int) (us : List String) :
    ∀ (ps : List (Response κ)) (k : Nat) (acc : List κ) (evs : List Event),
      IsChain cnet us ps → ps.all pageOk = true →
      commentsLoop cnet now (ps.length + k) us.head? acc evs
        = (acc ++ (ps.map Response.body).flatten,
           evs ++ us.map Event.fetch, none) := by
  induction us with
  | nil =>
    intro ps k acc evs hchain _
    cases ps with
    | nil => simp [commentsLoop]
    | cons p ps => exact hchain.elim
  | cons u us ih =>
    intro ps k acc evs hchain hok
    cases ps with
    | nil => exact hchain.elim
    | cons p ps =>
      obtain ⟨hnet, hnext, hrest⟩ := hchain
      rw [List.all_cons, Bool.and_eq_true] at hok
      obtain ⟨hokp, hokps⟩ := hok
      have hf := pageOk_fields hokp
      obtain ⟨o, ho⟩ := wait_for_rate_limit_ok now hf.2.1 hf.2.2
      have hnext2 : next_page_url p = us.head? := by
        cases us with
        | nil => simpa [next_page_url] using hnext
        | cons u2 us2 => simpa [next_page_url] using hnext
      have hlen : (p :: ps).length + k = (ps.length + k) + 1 := by
        simp [List.length_cons]; omega
      rw [hlen]
      show commentsLoop cnet now ((ps.length + k) + 1) (some u) acc evs = _
      simp only [commentsLoop, hnet, check_status_200 hf.1, ho, hnext2]
      rw [ih ps k (acc ++ p.body) (evs ++ [Event.fetch u]) hrest hokps]
      simp

/-- C7: for an issue whose comment thread spans any number of comment
pages, save_issue writes exactly two files on top of the filesystem:
number.comments.json holding the concatenation of all comment pages in
server order and number.json holding the issue record, however the
comments are split across pages, and the walk raises no error. -/
theorem save_issue_writes_two_files {κ : Type}
    (cnet : String → Response κ) (now : Int) (fs : FS κ)
    (issues_dir : Path) (issue : Issue) (us : List String)
    (ps : List (Response κ))
    (hchain : IsChain cnet (issue.comments_url :: us) ps)
    (hok : ps.all pageOk = true) :
    save_issue cnet now ps.length fs issues_dir issue
      = (FsEntry.file
           (os_path_join issues_dir
             ((Nat.repr issue.number).toList ++ (".comments.json").toList))
           (FileContent.commentsJson (ps.map Response.body).flatten)
         :: FsEntry.file
              (os_path_join issues_dir
                ((Nat.repr issue.number).toList ++ (".json").toList))
              (FileContent.issueJson issue)
         :: fs,
         (issue.comments_url :: us).map Event.fetch, none) := by
  have h := commentsLoop_chain cnet now (issue.comments_url :: us) ps 0 [] []
    hchain hok
  rw [Nat.add_zero, List.head?_cons, List.nil_append, List.nil_append] at h
  unfold save_issue
  rw [h]

/-- C7 witness: the spec example, issue number 42 with three comments
split 2 plus 1 across two comment pages, produces 42.json and a
42.comments.json holding all three comments in order. -/
theorem save_issue_writes_two_files_check :
    save_issue
      (fun u => if u = "cu"
        then (⟨200, [1, 2], some "cu2", some 5, some 0⟩ : Response Nat)
        else ⟨200, [3], none, some 5, some 0⟩)
      0 2 ([] : FS Nat) ("/d/issues").toList ⟨42, "iu", "cu"⟩
      = ([FsEntry.file
            (os_path_join ("/d/issues").toList
              ((Nat.repr 42).toList ++ (".comments.json").toList))
            (FileContent.commentsJson [1, 2, 3]),
          FsEntry.file
            (os_path_join ("/d/issues").toList
              ((Nat.repr 42).toList ++ (".json").toList))
            (FileContent.issueJson ⟨42, "iu", "cu"⟩)],
         [Event.fetch "cu", Event.fetch "cu2"], none) :=
  save_issue_writes_two_files _ 0 [] _ ⟨42, "iu", "cu"⟩ ["cu2"]
    [⟨200, [1, 2], some "cu2", some 5, some 0⟩,
     ⟨200, [3], none, some 5, some 0⟩]
    ⟨by decide, rfl, by decide, rfl, trivial⟩ (by decide)

/-- C10: save_issue collects the whole comment thread before writing
anything: whenever the comment walk ends in an error, save_issue returns
the filesystem unchanged with that error, so neither number.json nor
number.comments.json is written for the issue. -/
theorem save_issue_atomic_on_error {κ : Type}
    (cnet : String → Response κ) (now : Int) (cfuel : Nat) (fs : FS κ)
    (issues_dir : Path) (issue : Issue) (cs : List κ) (evs : List Event)
    (e : PyErr)
    (h : commentsLoop cnet now cfuel (some issue.comments_url) [] []
          = (cs, evs, some e)) :
    save_issue cnet now cfuel fs issues_dir issue = (fs, evs, some e) := by
  unfold save_issue
  rw [h]

/-- C10 witness: a failing comment page fetch (HTTP 500) leaves the
filesystem exactly as it was and propagates the error. -/
theorem save_issue_atomic_on_error_check :
    save_issue (fun _ => (⟨500, [], none, some 5, some 0⟩ : Response Nat))
      0 1 ([FsEntry.dir ("x").toList] : FS Nat) ("d").toList ⟨7, "u", "cu"⟩
      = ([FsEntry.dir ("x").toList], [Event.fetch "cu"],
         some (PyErr.httpError 500)) :=
  save_issue_atomic_on_error _ 0 1 _ _ _ [] [Event.fetch "cu"]
    (PyErr.httpError 500) (by decide)

/-- Embeds the inner for loop of save_repository_issues (lines 99 to
100): each issue of a page body is saved in order, stopping at the first
error. -/
def saveIssuesList {κ : Type} (cnet : String → Response κ) (now : Int)
    (cfuel : Nat) : List Issue → FS κ → Path → FS κ × Option PyErr
  | [], fs, _ => (fs, none)
  | i :: more, fs, issues_dir =>
    match save_issue cnet now cfuel fs issues_dir i with
    | (fs2, _, some e) => (fs2, some e)
    | (fs2, _, none) => saveIssuesList cnet now cfuel more fs2 issues_dir

/-- Embeds the while loop of save_repository_issues (lines 88 to 100). -/
def issuesLoop {κ : Type} (inet : String → Response Issue)
    (cnet : String → Response κ) (now : Int) (cfuel : Nat) :
    Nat → Option String → FS κ → Path → FS κ × Option PyErr
  | _, none, fs, _ => (fs, none)
  | 0, some _, fs, _ => (fs, some PyErr.fuelOut)
  | fuel+1, some url, fs, issues_dir =>
    let r := inet url
    match check_status r with
    | Except.error e => (fs, some e)
    | Except.ok _ =>
      match wait_for_rate_limit r now with
      | Except.error e => (fs, some e)
      | Except.ok _ =>
        match saveIssuesList cnet now cfuel r.body fs issues_dir with
        | (fs2, some e) => (fs2, some e)
        | (fs2, none) =>
            issuesLoop inet cnet now cfuel fuel (next_page_url r) fs2
              issues_dir

/-- The issue listing URL built at lines 85 to 87. -/
def issues_list_url (repo : Repo) : String :=
  "https://api.github.com/repos/" ++ String.mk repo.full_name
    ++ "/issues?state=all&direction=asc"

/-- Embeds save_repository_issues (lines 81 to 100): create the issues
directory (FileExistsError if it already exists), then walk the issue
pages, saving every issue of every page. -/
def save_repository_issues {κ : Type} (inet : String → Response Issue)
    (cnet : String → Response κ) (now : Int) (fuel cfuel : Nat)
    (fs : FS κ) (path : Path) (repo : Repo) : FS κ × Option PyErr :=
  let issues_dir := os_path_join path ("issues").toList
  match makedirs fs issues_dir with
  | Except.error e => (fs, some e)
  | Except.ok fs2 =>
      issuesLoop inet cnet now cfuel fuel (some (issues_list_url repo)) fs2
        issues_dir

/-- Warnings the script logs. -/
inductive LogEvent where
  | warnSkipPrivate (full_name : Path)
deriving Repr, DecidableEq

/-- Embeds the body of the for loop of main (lines 165 to 177): a private
repository is skipped with a warning and nothing else happens; otherwise
the pipeline runs in order: derive the path, create it (fatal if it
already exists), write the metadata file, mirror clone with optional
compression, and optionally save the issues. -/
def main_handle_repo {κ : Type} (inet : String → Response Issue)
    (cnet : String → Response κ) (now : Int) (fuel cfuel : Nat)
    (archive backup_issues cloneOk archiveOk : Bool) (dest : Path)
    (fs : FS κ) (repo : Repo) : FS κ × List LogEvent × Option PyErr :=
  if repo.is_private then
    (fs, [LogEvent.warnSkipPrivate repo.full_name], none)
  else
    match repo_path dest repo.full_name with
    | Except.error e => (fs, [], some e)
    | Except.ok path =>
      match makedirs fs path with
      | Except.error e => (fs, [], some e)
      | Except.ok fs2 =>
        let fs3 := write_repository_info fs2 path repo
        match clone_repository fs3 path repo archive cloneOk archiveOk with
        | (fs4, some e) => (fs4, [], some e)
        | (fs4, none) =>
          if backup_issues then
            match save_repository_issues inet cnet now fuel cfuel fs4 path
                repo with
            | (fs5, e2) => (fs5, [], e2)
          else (fs4, [], none)

/-- C9: a repository record whose private flag is set is skipped with a
warning: the filesystem is unchanged, so no destination subdirectory is
created, no pipeline step runs, and no error is raised. -/
theorem main_skips_private_repo {κ : Type} (inet : String → Response Issue)
    (cnet : String → Response κ) (now : Int) (fuel cfuel : Nat)
    (archive backup_issues cloneOk archiveOk : Bool) (dest : Path)
    (fs : FS κ) (repo : Repo) (h : repo.is_private = true) :
    main_handle_repo inet cnet now fuel cfuel archive backup_issues cloneOk
        archiveOk dest fs repo
      = (fs, [LogEvent.warnSkipPrivate repo.full_name], none) := by
  unfold main_handle_repo
  rw [h]
  simp

/-- C9 witness: a concrete private repository is skipped with a warning on
an empty filesystem, which stays empty. -/
theorem main_skips_private_repo_check :
    main_handle_repo (fun _ => (⟨200, [], none, some 5, some 0⟩ : Response Issue))
      (fun _ => (⟨200, [], none, some 5, some 0⟩ : Response Nat))
      0 1 1 true true true true ("/backups").toList ([] : FS Nat)
      ⟨("alice/secret").toList, "git://s", true⟩
      = ([], [LogEvent.warnSkipPrivate (("alice/secret").toList)], none) :=
  main_skips_private_repo _ _ 0 1 1 true true true true _ []
    ⟨("alice/secret").toList, "git://s", true⟩ rfl

/-- C2: the claim says the computed delay is (reset - now) + 1 floored at
0, and that a reset time in the past gives a delay at most 0 treated as no
wait.  The code uses the seconds attribute of a Python timedelta, which
for a negative timedelta is a large non-negative number: at remaining 0
with the reset 30 seconds in the past the code computes a delay of 86371
seconds, not a value at most 0.  The dead guard if delay greater than 0 in
the source shows the spec formula was the intent; the future-reset case
(delay 61 at reset now plus 60) and the remaining 50 case (no delay) do
match the claim. -/
theorem wait_for_rate_limit_past_reset_bug :
    wait_for_rate_limit (⟨200, [], none, some 0, some 970⟩ : Response Nat) 1000
      = Except.ok (some 86371)
    ∧ ¬ ((86371 : Int) ≤ 0)
    ∧ wait_for_rate_limit (⟨200, [], none, some 0, some 1060⟩ : Response Nat) 1000
      = Except.ok (some 61)
    ∧ wait_for_rate_limit (⟨200, [], none, some 50, some 1060⟩ : Response Nat) 1000
      = Except.ok none :=
  ⟨rfl, by decide, rfl, rfl⟩

/-- C3: the claim says the pager actually waits for the reported delay
between page fetches.  On a two-page run whose first response has
remaining 0 and reset 60 seconds ahead, the governor computes a positive
delay of 61 seconds, yet the event trace of the run is exactly the two
fetches with no sleep event between them: the source computes and logs the
delay but contains no sleep call, so the next request is issued
immediately. -/
theorem pager_never_sleeps_despite_delay :
    pagerLoop
      (fun u => if u = "p1"
        then (⟨200, [10], some "p2", some 0, some 1060⟩ : Response Nat)
        else ⟨200, [20], none, some 30, some 1060⟩)
      1000 2 (some "p1")
      = ⟨[10, 20], [Event.fetch "p1", Event.fetch "p2"], none⟩
    ∧ wait_for_rate_limit
        (⟨200, [10], some "p2", some 0, some 1060⟩ : Response Nat) 1000
        = Except.ok (some 61) :=
  ⟨by decide, rfl⟩

/-- C8 counterexample: the claim says that when the remaining-quota header
is absent the governor reports delay 0 rather than failing; in the code
the header is read with a plain dictionary lookup, so its absence raises
KeyError instead of succeeding. -/
theorem governor_fails_on_missing_remaining_header :
    wait_for_rate_limit (⟨200, [], none, none, none⟩ : Response Nat) 1000
      = Except.error PyErr.keyError :=
  rfl

/-- C8 amended: if the remaining-quota header is absent the governor
raises KeyError; if remaining is above 1 it succeeds with no delay without
consulting the reset header; if remaining is at most 1 and the reset
header is absent it raises KeyError. -/
theorem governor_header_absence_behaviour :
    (∀ (r : Response Nat) (now : Int), r.remaining = none →
        wait_for_rate_limit r now = Except.error PyErr.keyError)
    ∧ (∀ (r : Response Nat) (now v : Int), r.remaining = some v → 1 < v →
        wait_for_rate_limit r now = Except.ok none)
    ∧ (∀ (r : Response Nat) (now v : Int), r.remaining = some v → v ≤ 1 →
        r.reset = none →
        wait_for_rate_limit r now = Except.error PyErr.keyError) := by
  refine ⟨?_, ?_, ?_⟩
  · intro r now h
    simp [wait_for_rate_limit, h]
  · intro r now v h hv
    simp [wait_for_rate_limit, h, not_le.mpr hv]
  · intro r now v h hv hr
    simp [wait_for_rate_limit, h, hv, hr]

/-- C8 amended witness: the three branches of the amended statement at
concrete inputs. -/
theorem governor_header_absence_spot_check :
    wait_for_rate_limit (⟨200, [], none, none, some 0⟩ : Response Nat) 0
      = Except.error PyErr.keyError
    ∧ wait_for_rate_limit (⟨200, [], none, some 9, none⟩ : Response Nat) 0
      = Except.ok none
    ∧ wait_for_rate_limit (⟨200, [], none, some 1, none⟩ : Response Nat) 0
      = Except.error PyErr.keyError :=
  ⟨governor_header_absence_behaviour.1 _ 0 rfl,
   governor_header_absence_behaviour.2.1 _ 0 9 rfl (by decide),
   governor_header_absence_behaviour.2.2 _ 0 1 rfl (by decide) rfl⟩

end GithubBackup
